import Mathlib

/-!
# Verification of the go-mtpx path-resolution and tree-traversal core

This file is a shallow embedding, in Lean 4, of the path-resolution,
metadata-fetching, tree-walking and mutation helpers of the go-mtpx
repository.  The remote MTP device is modelled as a deterministic read
oracle (`Device`): every transport operation the Go code performs is a
field of that structure returning `Except String α`, where the `String`
is the transport-level error message.  Stateful mutation helpers return,
next to their result, the list of mutating operations they issued
(`MtpOp`), which stands in for the device-state change.

Machine integers: MTP handles, storage ids and format codes are `Nat`
(the Go code never performs arithmetic on them); the 64-bit signed sizes
are `Int`, with the Go `int64(uint64)` conversion made explicit by
`int64ofUint64`.
-/

set_option autoImplicit false
set_option linter.unusedVariables false

/-- MTP object format code for an association (container/directory), the
constant `OFC_Association` of the external mtp library used by the repo. -/
def OFC_Association : Nat := 0x3001

/-- Modelled from the spec: the reserved root sentinel handle (`ParentObjectId`
of the repository's constants file, not under src/): "a fixed constant
distinct from any real handle" denoting the store's root. The MTP all-ones
parent handle is used. -/
def ParentObjectId : Nat := 0xFFFFFFFF

/-- Modelled from the spec: the path separator constant `PathSep` of the
repository (not under src/); paths are slash-separated. -/
def PathSep : String := "/"

/-- Modelled from the spec: the path normalizer `fixSlash` of the repository
(not under src/): "converts all backslashes to forward slashes, ensures
exactly one leading slash, strips a trailing slash (except for root)". -/
def fixSlash (p : String) : String :=
  let cs := p.data.map (fun c => if c = '\\' then '/' else c)
  let cs := cs.dropWhile (fun c => c = '/')
  let cs := (cs.reverse.dropWhile (fun c => c = '/')).reverse
  String.mk ('/' :: cs)

/-- Modelled from the spec: `getFullPath` of the repository (not under src/),
the `join` of the Path Normalizer: "concatenates normalized parent and name
with a single separator, collapsing doubled separators". -/
def getFullPath (parentPath filename : String) : String :=
  fixSlash (parentPath ++ "/" ++ filename)

/-- Modelled from the spec: `extension` of the repository (not under src/):
"`Extension` is empty when `IsDirectory` is true, else the substring after
the last `.` in `Name` (empty if none)". -/
def extension (fileName : String) (isDir : Bool) : String :=
  if isDir then ""
  else
    let rev := fileName.data.reverse
    if rev.contains '.' then String.mk ((rev.takeWhile (fun c => c != '.')).reverse)
    else ""

/-- Modelled from the spec: the fixed exclusion set `disallowedFiles` of the
repository (not under src/): "a fixed, recognized set of filesystem artifact
names to always skip during walks (e.g., OS-generated metadata
files/directories)". -/
def disallowedFiles : List String :=
  [".DS_Store", ".Trashes", ".Spotlight-V100", "desktop.ini", "Thumbs.db"]

/-- Modelled from the spec: `isDisallowedFiles` of the repository (not under
src/): membership of a name in the static exclusion set ("configuration is a
static mapping of name → always-skip; no wildcard patterns"). -/
def isDisallowedFiles (fileName : String) : Bool :=
  disallowedFiles.contains fileName

/-- Modelled from the spec: `indexExists` of the repository (not under src/):
whether "more segments remain in the split", i.e. the index is a valid
position of the slice. -/
def indexExists (xs : List String) (index : Nat) : Bool :=
  index < xs.length

/-- Character-level accumulator loop of `stringsSplitSlash`. -/
def splitSeg : List Char → List Char → List String
  | [], acc => [String.mk acc.reverse]
  | c :: rest, acc =>
    if c = '/' then String.mk acc.reverse :: splitSeg rest []
    else splitSeg rest (c :: acc)

/-- The Go `strings.Split(s, PathSep)` call: since `PathSep` is the single
character `/`, splitting is modelled character by character (empty segments
are kept, exactly as `strings.Split` keeps them). -/
def stringsSplitSlash (s : String) : List String :=
  splitSeg s.data []

/-- The Go `int64(v)` conversion of a `uint64` value: values at or above
`2^63` wrap to negative. -/
def int64ofUint64 (n : Nat) : Int :=
  let m : Nat := n % 2 ^ 64
  if m < 2 ^ 63 then (m : Int) else (m : Int) - 2 ^ 64

/-- The object info record (`mtp.ObjectInfo`) as read from the device; only
the fields the embedded code consumes. `ModificationDate` is an opaque
timestamp. -/
structure ObjectInfo where
  StorageID : Nat
  ObjectFormat : Nat
  ParentObject : Nat
  Filename : String
  CompressedSize : Nat
  ModificationDate : Nat
  deriving Repr, DecidableEq

/-- The Go zero value `mtp.ObjectInfo{}`. -/
def emptyObjectInfo : ObjectInfo := ⟨0, 0, 0, "", 0, 0⟩

/-- The domain error taxonomy of the repository, one constructor per Go error
struct; each carries its diagnostic message string. -/
inductive MtpError where
  | FileObjectError (msg : String)
  | FileNotFoundError (msg : String)
  | InvalidPathError (msg : String)
  | SendObjectError (msg : String)
  | ListDirectoryError (msg : String)
  | LocalFileError (msg : String)
  | FilePermissionError (msg : String)
  deriving Repr, DecidableEq

/-- The `Error()` string of a domain error (each Go error struct delegates to
its wrapped error's message). -/
def MtpError.message : MtpError → String
  | .FileObjectError m => m
  | .FileNotFoundError m => m
  | .InvalidPathError m => m
  | .SendObjectError m => m
  | .ListDirectoryError m => m
  | .LocalFileError m => m
  | .FilePermissionError m => m

/-- The resolved descriptor (`FileInfo` struct of the repository).
Field order: Info, Size, IsDir, ModTime, Name, FullPath, ParentPath,
Extension, ParentId, ObjectId. -/
structure FileInfo where
  Info : ObjectInfo
  Size : Int
  IsDir : Bool
  ModTime : Nat
  Name : String
  FullPath : String
  ParentPath : String
  Extension : String
  ParentId : Nat
  ObjectId : Nat
  deriving Repr, DecidableEq

/-- The remote device as a deterministic read oracle.  Each field models one
transport call of the device-object-store client; `Except.error` is a
transport failure carrying its message.
* `getObjectInfo` models `dev.GetObjectInfo(handle, &obj)`;
* `getObjectPropValueUint64` models `dev.GetObjectPropValue(handle,
  OPC_ObjectSize, &val)` (the secondary precise-size query);
* `getObjectPropValueString` models `dev.GetObjectPropValue(handle,
  OPC_ObjectFileName, &val)`;
* `getObjectHandles` models `dev.GetObjectHandles(storageId, GOH_ALL_ASSOCS,
  parentHandle, &handles)`;
* `sendObjectInfo` models `dev.SendObjectInfo(storageId, parentHandle,
  &obj)` returning the fresh handle;
* `sendObject` models the whole `dev.SendObject(buf, size, progress)`
  transfer: its outcome (including a progress-callback abort) is summarized
  by the oracle's result for the given handle and size;
* `deleteObject` models the delete transport call used by `DeleteFile`. -/
structure Device where
  getObjectInfo : Nat → Except String ObjectInfo
  getObjectPropValueUint64 : Nat → Except String Nat
  getObjectPropValueString : Nat → Except String String
  getObjectHandles : Nat → Nat → Except String (List Nat)
  sendObjectInfo : Nat → Nat → ObjectInfo → Except String Nat
  sendObject : Nat → Int → Except String Unit
  deleteObject : Nat → Except String Unit

/-- Function `isObjectADir` of both variants: the object's format tag equals the
association (container) kind. -/
def isObjectADir (obj : ObjectInfo) : Bool :=
  obj.ObjectFormat == OFC_Association

namespace Mtpx

/-- Function `GetFileSize` of the mtpx package: if the compact size field holds the
all-ones sentinel, issue the secondary precise-size query, wrapping a failure
as `FileObjectError` with the handle embedded in the message; otherwise use
the compact field. -/
def GetFileSize (dev : Device) (obj : ObjectInfo) (objectId : Nat) :
    Except MtpError Int :=
  if obj.CompressedSize == 0xffffffff then
    match dev.getObjectPropValueUint64 objectId with
    | .error e =>
      .error (.FileObjectError
        ("GetObjectPropValue handle " ++ toString objectId ++ " failed: " ++ e))
    | .ok v => .ok (int64ofUint64 v)
  else
    .ok (Int.ofNat obj.CompressedSize)

/-- The synthesized root descriptor of the mtpx variant: Go struct literal
with `Size: 0xFFFFFFFF`, `IsDir: true`, `FullPath: "/"`,
`ObjectId: ParentObjectId`, `Info: &mtp.ObjectInfo{}`, remaining fields zero
valued. -/
def rootFileInfo : FileInfo :=
  ⟨emptyObjectInfo, 0xFFFFFFFF, true, 0, "", "/", "", "", 0, ParentObjectId⟩

/-- Function `GetObjectFromObjectId` of the mtpx package.  Note that the error of
`GetFileSize` is discarded (`size, _ := GetFileSize(...)` in the source), in
which case `size` keeps the Go zero value `0`. -/
def GetObjectFromObjectId (dev : Device) (objectId : Nat) (parentPath : String) :
    Except MtpError FileInfo :=
  if objectId == ParentObjectId then
    .ok rootFileInfo
  else
    match dev.getObjectInfo objectId with
    | .error e => .error (.FileObjectError e)
    | .ok obj =>
      let size : Int :=
        match GetFileSize dev obj objectId with
        | .error _ => 0
        | .ok s => s
      let isDir := isObjectADir obj
      let pp := fixSlash parentPath
      let fullPath := getFullPath pp obj.Filename
      .ok ⟨obj, size, isDir, obj.ModificationDate, obj.Filename, fullPath, pp,
        extension obj.Filename isDir, obj.ParentObject, objectId⟩

/-- The scan loop of `GetObjectFromParentIdAndFilename`: fetch each child's
filename property first; on mismatch skip without a full metadata fetch; on
match fetch the full descriptor and return it only if its resolved name
equals the target (defensive re-check), else keep scanning. -/
def findByFilename (dev : Device) (filename : String) :
    List Nat → Except MtpError FileInfo
  | [] => .error (.FileNotFoundError ("file not found: " ++ filename))
  | objectId :: rest =>
    match dev.getObjectPropValueString objectId with
    | .error e => .error (.FileObjectError e)
    | .ok v =>
      if v != filename then findByFilename dev filename rest
      else
        match GetObjectFromObjectId dev objectId "" with
        | .error e => .error (.FileObjectError e.message)
        | .ok fi =>
          if fi.Name == filename then .ok fi
          else findByFilename dev filename rest

/-- Function `GetObjectFromParentIdAndFilename` of the mtpx package: enumerate the
children of `parentId` and scan them for `filename`. -/
def GetObjectFromParentIdAndFilename (dev : Device) (storageId parentId : Nat)
    (filename : String) : Except MtpError FileInfo :=
  match dev.getObjectHandles storageId parentId with
  | .error e => .error (.FileObjectError e)
  | .ok handles => findByFilename dev filename handles

/-- The Go constant `skipIndex` of `GetObjectFromPath`: the leading empty
segment of the split is skipped. -/
def skipIndex : Nat := 1

/-- The mutable loop state of `GetObjectFromPath`: the index `i` into the
sliced split, the current `objectId`, the running `resultCount` and the last
resolved descriptor `fi`. -/
structure ResolveState where
  i : Nat
  objectId : Nat
  resultCount : Nat
  fi : Option FileInfo
  deriving Repr, DecidableEq

/-- The initial loop state of `GetObjectFromPath`: index 0, root handle,
count 0, no descriptor. -/
def initResolveState : ResolveState := ⟨0, ParentObjectId, 0, none⟩

/-- One iteration of the segment loop of `GetObjectFromPath`: look the segment
up under the current handle; translate `FileNotFoundError` into
`InvalidPathError` and propagate any other lookup error unchanged; fail with
`InvalidPathError` when the match is not a directory yet further segments
remain; otherwise advance the state. -/
def resolveStep (dev : Device) (storageId : Nat) (fullPath : String)
    (splitted : List String) (st : ResolveState) (fName : String) :
    Except MtpError ResolveState :=
  match GetObjectFromParentIdAndFilename dev storageId st.objectId fName with
  | .error e =>
    match e with
    | .FileNotFoundError m =>
      .error (.InvalidPathError
        ("path not found: " ++ fullPath ++ "\nreason: " ++ m))
    | _ => .error e
  | .ok gfi =>
    if !gfi.IsDir && indexExists splitted (st.i + 1 + skipIndex) then
      .error (.InvalidPathError ("path not found: " ++ fullPath))
    else
      .ok ⟨st.i + 1, gfi.ObjectId, st.resultCount + 1, some gfi⟩

/-- The segment loop of `GetObjectFromPath` over the sliced split, with early
exit on the first failing step. -/
def resolveLoop (dev : Device) (storageId : Nat) (fullPath : String)
    (splitted : List String) :
    List String → ResolveState → Except MtpError ResolveState
  | [], st => .ok st
  | fName :: rest, st =>
    match resolveStep dev storageId fullPath splitted st fName with
    | .error e => .error e
    | .ok st2 => resolveLoop dev storageId fullPath splitted rest st2

/-- Function `GetObjectFromPath` of the mtpx package: reject the empty path, shortcut
the root path, then resolve segment by segment from the root handle; reject
pathological splits that resolved nothing; on success overwrite the
descriptor's `FullPath` with the normalized input path. -/
def GetObjectFromPath (dev : Device) (storageId : Nat) (fullPath : String) :
    Except MtpError FileInfo :=
  if fullPath == "" then
    .error (.InvalidPathError ("path does not exists. path: " ++ fullPath))
  else
    let filePath := fixSlash fullPath
    if filePath == PathSep then
      GetObjectFromObjectId dev ParentObjectId ""
    else
      let splitted := stringsSplitSlash filePath
      match resolveLoop dev storageId fullPath splitted (splitted.drop skipIndex)
          initResolveState with
      | .error e => .error e
      | .ok st =>
        if st.resultCount < 1 then
          .error (.InvalidPathError ("file not found: " ++ fullPath))
        else
          match st.fi with
          | none => .error (.InvalidPathError ("file not found: " ++ fullPath))
          | some fi =>
            .ok ⟨fi.Info, fi.Size, fi.IsDir, fi.ModTime, fi.Name, filePath,
              fi.ParentPath, fi.Extension, fi.ParentId, fi.ObjectId⟩

/-- Function `GetObjectFromObjectIdOrPath` of the mtpx package: both inputs empty is an
error; a zero handle delegates to path resolution; otherwise the
caller-supplied handle is described directly. -/
def GetObjectFromObjectIdOrPath (dev : Device) (storageId objectId : Nat)
    (fullPath : String) : Except MtpError FileInfo :=
  if objectId == 0 && fullPath == "" then
    .error (.InvalidPathError
      ("invalid path: " ++ fullPath ++ ". both objectId and fullPath cannot be empty"))
  else if objectId == 0 then
    GetObjectFromPath dev storageId fullPath
  else
    GetObjectFromObjectId dev objectId fullPath

/-- The visitor callback of a remote walk (`WalkCb`): receives the child's
handle and descriptor; a failure return aborts the walk. -/
abbrev WalkCb := Nat → FileInfo → Except MtpError Unit

/-- The observable outcome of a remote walk: the returned total, the
sequence of handles actually passed to the visitor (ghost trace, in visit
order), and the returned error, if any. -/
structure WalkResult where
  total : Nat
  visited : List Nat
  err : Option MtpError
  deriving Repr, DecidableEq

/-- The child loop of `proccessWalk` over the enumerated handles, abstracted
over the describe call (`GetObjectFromObjectId` at the frame's path) and the
recursive call (`recurse`, which returns `none` when the recursion fuel is
exhausted).  Per child: an undescribable child is skipped silently; an
excluded name is skipped when `skipDisallowedFiles`; otherwise the child is
counted, then visited (a visitor failure aborts with the count so far); a
directory child is recursed into when `recursive`, a recursion failure
aborting with this frame's count (the failed recursion's partial count is
dropped), a recursion success adding its count. -/
def walkLoop (describe : Nat → Except MtpError FileInfo)
    (skipDisallowedFiles recursive : Bool) (cb : WalkCb)
    (recurse : Nat → String → Option WalkResult) :
    List Nat → Option WalkResult
  | [] => some ⟨0, [], none⟩
  | objId :: rest =>
    match describe objId with
    | .error _ => walkLoop describe skipDisallowedFiles recursive cb recurse rest
    | .ok fi =>
      if skipDisallowedFiles && isDisallowedFiles fi.Name then
        walkLoop describe skipDisallowedFiles recursive cb recurse rest
      else
        match cb objId fi with
        | .error e => some ⟨1, [objId], some e⟩
        | .ok _ =>
          if recursive && fi.IsDir then
            match recurse objId fi.FullPath with
            | none => none
            | some r =>
              match r.err with
              | some e => some ⟨1, objId :: r.visited, some e⟩
              | none =>
                match walkLoop describe skipDisallowedFiles recursive cb recurse rest with
                | none => none
                | some rr =>
                  some ⟨1 + r.total + rr.total, objId :: (r.visited ++ rr.visited), rr.err⟩
          else
            match walkLoop describe skipDisallowedFiles recursive cb recurse rest with
            | none => none
            | some rr => some ⟨1 + rr.total, objId :: rr.visited, rr.err⟩

/-- Function `proccessWalk` of the mtpx package, with an explicit recursion-depth fuel
(`none` = fuel exhausted; the Go original recurses on the call stack).
Resolve the anchor, enumerate its children and run the child loop. -/
def proccessWalkAux (dev : Device) (storageId : Nat)
    (recursive skipDisallowedFiles : Bool) (cb : WalkCb) :
    Nat → Nat → String → Option WalkResult
  | 0, _, _ => none
  | fuel + 1, objectId, fullPath =>
    match GetObjectFromObjectIdOrPath dev storageId objectId fullPath with
    | .error e => some ⟨0, [], some e⟩
    | .ok fi =>
      match dev.getObjectHandles storageId fi.ObjectId with
      | .error e => some ⟨0, [], some (.ListDirectoryError e)⟩
      | .ok handles =>
        walkLoop (fun objId => GetObjectFromObjectId dev objId fullPath)
          skipDisallowedFiles recursive cb
          (fun objId p =>
            proccessWalkAux dev storageId recursive skipDisallowedFiles cb fuel objId p)
          handles

/-- Function `proccessWalk` of the mtpx package (fueled entry point). -/
def proccessWalk (fuel : Nat) (dev : Device) (storageId objectId : Nat)
    (fullPath : String) (recursive skipDisallowedFiles : Bool) (cb : WalkCb) :
    Option WalkResult :=
  proccessWalkAux dev storageId recursive skipDisallowedFiles cb fuel objectId fullPath

/-- A mutating operation issued to the device; the trace of these stands in
for the device-state change of a mutation helper. -/
inductive MtpOp where
  | deleteOp (objectId : Nat)
  | sendInfoOp (parentId : Nat) (filename : String)
  | sendDataOp (objectId : Nat)
  deriving Repr, DecidableEq

/-- Modelled from the spec: `DeleteFile` of the repository (not under src/),
the `deleteObject(handle)` capability: deletes the object, propagating a
transport failure (error kind modelled as `FileObjectError`). -/
def DeleteFile (dev : Device) (storageId objectId : Nat) (fullPath : String) :
    Except MtpError Unit :=
  match dev.deleteObject objectId with
  | .error e => .error (.FileObjectError e)
  | .ok _ => .ok ()

/-- Function `handleMakeFile` of the mtpx package.  The local source file is summarized
by its size `fSize` (`(*fInfo).Size()` in the source); the byte transfer and
its progress callback are summarized by the oracle's `sendObject` result.
Returns the result together with the trace of mutating operations issued.
Look the name up under the parent: if it exists and `overwriteExisting` is
false, return the existing handle with no mutation; if it exists and
`overwriteExisting` is true, delete it first, propagating a deletion failure;
a `FileNotFoundError` from the lookup means proceed, any other lookup error
propagates.  Then create the object handle and stream the bytes to it,
wrapping either transport failure as `SendObjectError`. -/
def handleMakeFile (dev : Device) (storageId : Nat) (obj : ObjectInfo)
    (fSize : Int) (overwriteExisting : Bool) :
    Except MtpError Nat × List MtpOp :=
  let createAndSend : List MtpOp → Except MtpError Nat × List MtpOp :=
    fun ops =>
      match dev.sendObjectInfo storageId obj.ParentObject obj with
      | .error e =>
        (.error (.SendObjectError e), ops ++ [.sendInfoOp obj.ParentObject obj.Filename])
      | .ok objId =>
        match dev.sendObject objId fSize with
        | .error e =>
          (.error (.SendObjectError e),
            ops ++ [.sendInfoOp obj.ParentObject obj.Filename, .sendDataOp objId])
        | .ok _ =>
          (.ok objId,
            ops ++ [.sendInfoOp obj.ParentObject obj.Filename, .sendDataOp objId])
  match GetObjectFromParentIdAndFilename dev storageId obj.ParentObject obj.Filename with
  | .ok fi =>
    if !overwriteExisting then
      (.ok fi.ObjectId, [])
    else
      match DeleteFile dev storageId fi.ObjectId "" with
      | .error e => (.error e, [.deleteOp fi.ObjectId])
      | .ok _ => createAndSend [.deleteOp fi.ObjectId]
  | .error e =>
    match e with
    | .FileNotFoundError _ => createAndSend []
    | _ => (.error e, [])

end Mtpx

namespace Helpers

/-- Function `GetFileSize` of the helpers.go historical variant (identical logic to
the mtpx variant; the wrapped message formats `err` instead of
`err.Error()`, producing the same string here). -/
def GetFileSize (dev : Device) (obj : ObjectInfo) (objectId : Nat) :
    Except MtpError Int :=
  if obj.CompressedSize == 0xffffffff then
    match dev.getObjectPropValueUint64 objectId with
    | .error e =>
      .error (.FileObjectError
        ("GetObjectPropValue handle " ++ toString objectId ++ " failed: " ++ e))
    | .ok v => .ok (int64ofUint64 v)
  else
    .ok (Int.ofNat obj.CompressedSize)

/-- The synthesized root descriptor of the helpers.go variant: Go struct
literal with `Size: 0`, `IsDir: true`, `FullPath: "/"`,
`ObjectId: ParentObjectId`, `Info: &mtp.ObjectInfo{}`, remaining fields zero
valued. -/
def rootFileInfo : FileInfo :=
  ⟨emptyObjectInfo, 0, true, 0, "", "/", "", "", 0, ParentObjectId⟩

/-- Function `GetObjectFromObjectId` of the helpers.go variant; differs from the mtpx
variant only in the root descriptor's `Size` field. -/
def GetObjectFromObjectId (dev : Device) (objectId : Nat) (parentPath : String) :
    Except MtpError FileInfo :=
  if objectId == ParentObjectId then
    .ok rootFileInfo
  else
    match dev.getObjectInfo objectId with
    | .error e => .error (.FileObjectError e)
    | .ok obj =>
      let size : Int :=
        match GetFileSize dev obj objectId with
        | .error _ => 0
        | .ok s => s
      let isDir := isObjectADir obj
      let pp := fixSlash parentPath
      let fullPath := getFullPath pp obj.Filename
      .ok ⟨obj, size, isDir, obj.ModificationDate, obj.Filename, fullPath, pp,
        extension obj.Filename isDir, obj.ParentObject, objectId⟩

/-- The scan loop of the helpers.go `GetObjectFromParentIdAndFilename`: fetch
each child's full info record and return the first whose filename matches,
with its kind. -/
def findByFilename (dev : Device) (filename : String) :
    List Nat → Except MtpError (Nat × Bool)
  | [] => .error (.FileNotFoundError ("file not found: " ++ filename))
  | objectId :: rest =>
    match dev.getObjectInfo objectId with
    | .error e => .error (.FileObjectError e)
    | .ok obj =>
      if obj.Filename == filename then .ok (objectId, isObjectADir obj)
      else findByFilename dev filename rest

/-- Function `GetObjectFromParentIdAndFilename` of the helpers.go variant: returns
the matching handle and whether it is a directory. -/
def GetObjectFromParentIdAndFilename (dev : Device) (storageId parentId : Nat)
    (filename : String) : Except MtpError (Nat × Bool) :=
  match dev.getObjectHandles storageId parentId with
  | .error e => .error (.FileObjectError e)
  | .ok handles => findByFilename dev filename handles

/-- The mutable loop state of the helpers.go `GetObjectFromPath`: index `i`,
current `parentId`, current `isDir` flag and the running `resultCount`. -/
structure ResolveState where
  i : Nat
  parentId : Nat
  isDir : Bool
  resultCount : Nat
  deriving Repr, DecidableEq

/-- The initial loop state of the helpers.go `GetObjectFromPath`. -/
def initResolveState : ResolveState := ⟨0, ParentObjectId, true, 0⟩

/-- One iteration of the segment loop of the helpers.go `GetObjectFromPath`:
same `FileNotFoundError` translation and mid-path non-directory guard as the
mtpx variant. -/
def resolveStep (dev : Device) (storageId : Nat) (fullPath : String)
    (splitted : List String) (st : ResolveState) (fName : String) :
    Except MtpError ResolveState :=
  match GetObjectFromParentIdAndFilename dev storageId st.parentId fName with
  | .error e =>
    match e with
    | .FileNotFoundError m =>
      .error (.InvalidPathError
        ("path not found: " ++ fullPath ++ "\nreason: " ++ m))
    | _ => .error e
  | .ok (objectId, isDirOfMatch) =>
    if !isDirOfMatch && indexExists splitted (st.i + 1 + Mtpx.skipIndex) then
      .error (.InvalidPathError ("path not found: " ++ fullPath))
    else
      .ok ⟨st.i + 1, objectId, isDirOfMatch, st.resultCount + 1⟩

/-- The segment loop of the helpers.go `GetObjectFromPath`. -/
def resolveLoop (dev : Device) (storageId : Nat) (fullPath : String)
    (splitted : List String) :
    List String → ResolveState → Except MtpError ResolveState
  | [], st => .ok st
  | fName :: rest, st =>
    match resolveStep dev storageId fullPath splitted st fName with
    | .error e => .error e
    | .ok st2 => resolveLoop dev storageId fullPath splitted rest st2

/-- Function `GetObjectFromPath` of the helpers.go variant: no empty-path guard, root
shortcut returning the root handle pair, then the segment loop; returns the
final handle and kind. -/
def GetObjectFromPath (dev : Device) (storageId : Nat) (fullPath : String) :
    Except MtpError (Nat × Bool) :=
  let filePath := fixSlash fullPath
  if filePath == PathSep then
    .ok (ParentObjectId, true)
  else
    let splitted := stringsSplitSlash filePath
    match resolveLoop dev storageId fullPath splitted (splitted.drop Mtpx.skipIndex)
        initResolveState with
    | .error e => .error e
    | .ok st =>
      if st.resultCount < 1 then
        .error (.InvalidPathError ("file not found: " ++ fullPath))
      else
        .ok (st.parentId, st.isDir)

end Helpers

/-! ## Local filesystem walk (`walkLocalFiles`)

The local filesystem is modelled as an in-memory tree of entries, stat-ed
the way `filepath.Walk` observes them (via lstat: a symbolic link is its
own entry kind and is never a directory, so it is never descended into).
The in-memory tree makes the traversal itself infallible; the visitor
callback is the only error source, as in the claims under verification. -/

/-- A local filesystem entry: a regular file with its byte size, a directory
with its children (in traversal order), or a symbolic link. -/
inductive LocalNode where
  | file (name : String) (size : Int)
  | dir (name : String) (children : List LocalNode)
  | symlink (name : String)
  deriving Repr

/-- The stat view of a local entry passed to the visitor (`os.FileInfo`):
name, size, directory flag and symlink flag. -/
structure LocalFileInfo where
  name : String
  size : Int
  isDir : Bool
  isSymlink : Bool
  deriving Repr, DecidableEq

/-- The visitor callback of the local walk. -/
abbrev LocalWalkCb := LocalFileInfo → Except MtpError Unit

/-- The three aggregates of `walkLocalFiles` (Go `int64` counters). -/
structure LocalTotals where
  totalFiles : Int
  totalDirectories : Int
  totalSize : Int
  deriving Repr, DecidableEq

/-- The pre-order traversal of `filepath.Walk` over a forest, with the walk
function of `walkLocalFiles` inlined: a symbolic link is skipped (and, being
no directory under lstat, never descended into); an excluded name is neither
visited nor counted, but an excluded directory's children are still walked
(`filepath.Walk` only prunes on `SkipDir`, which the code never returns);
otherwise the visitor runs — its failure aborts the entire walk with the
aggregates so far — and then the entry is counted (a non-directory into
`totalFiles`/`totalSize`, a directory into `totalDirectories`).  Returns the
aggregates, the trace of entries passed to the visitor (in visit order) and
the error, if any. -/
def walkForest (cb : LocalWalkCb) :
    List LocalNode → LocalTotals → LocalTotals × List LocalFileInfo × Option MtpError
  | [], st => (st, [], none)
  | .symlink _ :: rest, st => walkForest cb rest st
  | .file n sz :: rest, st =>
    if isDisallowedFiles n then walkForest cb rest st
    else
      match cb ⟨n, sz, false, false⟩ with
      | .error e => (st, [⟨n, sz, false, false⟩], some e)
      | .ok _ =>
        let st2 : LocalTotals :=
          ⟨st.totalFiles + 1, st.totalDirectories, st.totalSize + sz⟩
        match walkForest cb rest st2 with
        | (st3, v2, e2) => (st3, ⟨n, sz, false, false⟩ :: v2, e2)
  | .dir n cs :: rest, st =>
    if isDisallowedFiles n then
      match walkForest cb cs st with
      | (st2, v, some e) => (st2, v, some e)
      | (st2, v, none) =>
        match walkForest cb rest st2 with
        | (st3, v2, e2) => (st3, v ++ v2, e2)
    else
      match cb ⟨n, 0, true, false⟩ with
      | .error e => (st, [⟨n, 0, true, false⟩], some e)
      | .ok _ =>
        let st2 : LocalTotals :=
          ⟨st.totalFiles, st.totalDirectories + 1, st.totalSize⟩
        match walkForest cb cs st2 with
        | (st3, v, some e) => (st3, ⟨n, 0, true, false⟩ :: v, some e)
        | (st3, v, none) =>
          match walkForest cb rest st3 with
          | (st4, v2, e2) => (st4, ⟨n, 0, true, false⟩ :: (v ++ v2), e2)

/-- Function `walkLocalFiles` of the mtpx package: walk each source root in turn with
zero-initialized aggregates; an abort in one source's walk ends the whole
multi-root walk, the visitor's error passing through the classification
switch unchanged (it is no `os.PathError`). -/
def walkLocalFiles (sources : List LocalNode) (cb : LocalWalkCb) :
    LocalTotals × List LocalFileInfo × Option MtpError :=
  walkForest cb sources ⟨0, 0, 0⟩

/-! ## Specification helpers (used only in theorem statements) -/

/-- The children of a directory listing that a walk frame visits: those whose
describe call succeeds with a name outside the exclusion set. -/
def allowedChildren (describe : Nat → Except MtpError FileInfo) (hs : List Nat) :
    List Nat :=
  hs.filter (fun h =>
    match describe h with
    | .ok fi => !isDisallowedFiles fi.Name
    | .error _ => false)

/-- Number of non-directories in a local visit trace. -/
def localFilesOf : List LocalFileInfo → Int
  | [] => 0
  | i :: v => (if i.isDir then 0 else 1) + localFilesOf v

/-- Number of directories in a local visit trace. -/
def localDirsOf : List LocalFileInfo → Int
  | [] => 0
  | i :: v => (if i.isDir then 1 else 0) + localDirsOf v

/-- Total byte size of the non-directories in a local visit trace. -/
def localSizeOf : List LocalFileInfo → Int
  | [] => 0
  | i :: v => (if i.isDir then 0 else i.size) + localSizeOf v

/-! ## Concrete sample devices (used by witnesses and counterexamples) -/

/-- An info record whose compact size field holds the all-ones overflow
sentinel. -/
def sampleBigObj : ObjectInfo := ⟨1, 0x3000, ParentObjectId, "big.bin", 0xffffffff, 105⟩

/-- Info records of the sample store: handle 10 is directory "docs" under
root, 11 file "a.txt" (5 bytes) under root, 12 excluded file ".DS_Store"
under root, 13 the sentinel-size file "big.bin", 20 file "b.txt" (7 bytes)
under 10, 21 empty directory "sub" under 10. -/
def sampleInfo : Nat → Except String ObjectInfo
  | 10 => .ok ⟨1, OFC_Association, ParentObjectId, "docs", 0, 100⟩
  | 11 => .ok ⟨1, 0x3000, ParentObjectId, "a.txt", 5, 101⟩
  | 12 => .ok ⟨1, 0x3000, ParentObjectId, ".DS_Store", 3, 102⟩
  | 13 => .ok sampleBigObj
  | 20 => .ok ⟨1, 0x3000, 10, "b.txt", 7, 103⟩
  | 21 => .ok ⟨1, OFC_Association, 10, "sub", 0, 104⟩
  | _ => .error "no such object"

/-- Child enumeration of the sample store (storage 1). -/
def sampleHandles : Nat → Nat → Except String (List Nat)
  | 1, 0xFFFFFFFF => .ok [10, 11, 12]
  | 1, 10 => .ok [20, 21]
  | 1, 21 => .ok []
  | _, _ => .error "no such parent"

/-- Filename property of the sample store, consistent with the info records. -/
def sampleNameProp : Nat → Except String String
  | 10 => .ok "docs"
  | 11 => .ok "a.txt"
  | 12 => .ok ".DS_Store"
  | 20 => .ok "b.txt"
  | 21 => .ok "sub"
  | _ => .error "no such object"

/-- A sample read-only device over `sampleInfo`; all mutating calls and the
precise-size query fail at the transport. -/
def sampleDev : Device :=
  ⟨sampleInfo, fun _ => .error "no size prop", sampleNameProp, sampleHandles,
    fun _ _ _ => .error "read only", fun _ _ => .error "read only",
    fun _ => .error "read only"⟩

/-- A device on which every transport call fails: used to show that certain
results are reached without consulting the store. -/
def failDev : Device :=
  ⟨fun _ => .error "down", fun _ => .error "down", fun _ => .error "down",
    fun _ _ => .error "down", fun _ _ _ => .error "down",
    fun _ _ => .error "down", fun _ => .error "down"⟩

/-- A device whose precise-size query succeeds: handle 9 reports the value
`0xFFFFFFFF` (a file of exactly that many bytes), handle 8 reports 42. -/
def sizePropDev : Device :=
  ⟨fun _ => .error "down",
    fun h => if h = 9 then .ok 0xFFFFFFFF else if h = 8 then .ok 42 else .error "down",
    fun _ => .error "down", fun _ _ => .error "down",
    fun _ _ _ => .error "down", fun _ _ => .error "down",
    fun _ => .error "down"⟩


/-! ## Claim theorems -/

/-- C9: the two historical variants of the describe operation return
synthesized root descriptors that agree on every field except `Size`: for
the root sentinel handle the helpers.go variant reports `Size` 0 while the
mtpx variant reports the all-ones sentinel `0xFFFFFFFF`.  (Both root
branches ignore the device and the parent-path hint.) -/
theorem rootDescriptor_variants_agree_except_size (dev1 dev2 : Device) (pp1 pp2 : String) :
    Mtpx.GetObjectFromObjectId dev1 ParentObjectId pp1 = .ok Mtpx.rootFileInfo ∧
    Helpers.GetObjectFromObjectId dev2 ParentObjectId pp2 = .ok Helpers.rootFileInfo ∧
    Mtpx.rootFileInfo.Info = Helpers.rootFileInfo.Info ∧
    Mtpx.rootFileInfo.IsDir = Helpers.rootFileInfo.IsDir ∧
    Mtpx.rootFileInfo.ModTime = Helpers.rootFileInfo.ModTime ∧
    Mtpx.rootFileInfo.Name = Helpers.rootFileInfo.Name ∧
    Mtpx.rootFileInfo.FullPath = Helpers.rootFileInfo.FullPath ∧
    Mtpx.rootFileInfo.ParentPath = Helpers.rootFileInfo.ParentPath ∧
    Mtpx.rootFileInfo.Extension = Helpers.rootFileInfo.Extension ∧
    Mtpx.rootFileInfo.ParentId = Helpers.rootFileInfo.ParentId ∧
    Mtpx.rootFileInfo.ObjectId = Helpers.rootFileInfo.ObjectId ∧
    Mtpx.rootFileInfo.Size = 0xFFFFFFFF ∧ Helpers.rootFileInfo.Size = 0 :=
  ⟨rfl, rfl, rfl, rfl, rfl, rfl, rfl, rfl, rfl, rfl, rfl, rfl, rfl⟩

/-- C5: resolving any path that normalizes to `"/"` returns the synthesized
root descriptor (`IsDir` true, `FullPath` `"/"`, `ObjectId` the root
sentinel).  "Without performing any call to the remote store" is formalized
by device independence: the result is the same for every device, in
particular for one on which every transport call fails. -/
theorem GetObjectFromPath_root_shortcut (dev dev2 : Device) (sid sid2 : Nat)
    (path : String) (hne : path ≠ "") (hroot : fixSlash path = PathSep) :
    Mtpx.GetObjectFromPath dev sid path = .ok Mtpx.rootFileInfo ∧
    Mtpx.GetObjectFromPath dev sid path = Mtpx.GetObjectFromPath dev2 sid2 path ∧
    Mtpx.rootFileInfo.IsDir = true ∧
    Mtpx.rootFileInfo.FullPath = "/" ∧
    Mtpx.rootFileInfo.ObjectId = ParentObjectId := by
  have hne' : (path == "") = false := by
    simpa using hne
  have h1 : Mtpx.GetObjectFromPath dev sid path = .ok Mtpx.rootFileInfo := by
    simp only [Mtpx.GetObjectFromPath, hne', Bool.false_eq_true, if_false, hroot]
    simp [Mtpx.GetObjectFromObjectId]
  have h2 : Mtpx.GetObjectFromPath dev2 sid2 path = .ok Mtpx.rootFileInfo := by
    simp only [Mtpx.GetObjectFromPath, hne', Bool.false_eq_true, if_false, hroot]
    simp [Mtpx.GetObjectFromObjectId]
  exact ⟨h1, h1.trans h2.symm, rfl, rfl, rfl⟩

/-- C5 witness: resolving `"/"` on the sample device returns the root
descriptor, and the failing device gives the same answer. -/
theorem GetObjectFromPath_root_shortcut_witness :
    Mtpx.GetObjectFromPath sampleDev 1 "/" = .ok Mtpx.rootFileInfo ∧
    Mtpx.GetObjectFromPath sampleDev 1 "/" = Mtpx.GetObjectFromPath failDev 2 "/" ∧
    Mtpx.rootFileInfo.IsDir = true ∧
    Mtpx.rootFileInfo.FullPath = "/" ∧
    Mtpx.rootFileInfo.ObjectId = ParentObjectId :=
  GetObjectFromPath_root_shortcut sampleDev failDev 1 2 "/" (by decide) (by decide)

/-- C2 counterexample: on the sample device, object 13 has the sentinel
compact size and its precise-size query fails at the transport, yet
`GetObjectFromObjectId` returns a descriptor (with `Size` 0) instead of
failing: the claim "describe fails with an ObjectAccessError ... rather than
returning a descriptor" is false on the code, which discards the
`GetFileSize` error (`size, _ := GetFileSize(...)`). -/
theorem describe_swallows_size_error_cex :
    sampleDev.getObjectInfo 13 = .ok sampleBigObj ∧
    sampleBigObj.CompressedSize = 0xffffffff ∧
    sampleDev.getObjectPropValueUint64 13 = .error "no size prop" ∧
    Mtpx.GetObjectFromObjectId sampleDev 13 "" =
      .ok ⟨sampleBigObj, 0, false, 105, "big.bin", "/big.bin", "/", "bin",
        ParentObjectId, 13⟩ :=
  ⟨rfl, rfl, rfl, rfl⟩

/-- C2 amended: when the compact size field equals the overflow sentinel and
the secondary precise-size query fails, `GetFileSize` fails with a
`FileObjectError` that embeds the handle in its message — but
`GetObjectFromObjectId` (describe) discards that failure and returns a
descriptor whose `Size` is the Go zero value 0, rather than failing. -/
theorem getFileSize_error_swallowed_by_describe (dev : Device) (obj : ObjectInfo)
    (objectId : Nat) (parentPath m : String)
    (hinfo : dev.getObjectInfo objectId = .ok obj)
    (hsent : obj.CompressedSize = 0xffffffff)
    (hq : dev.getObjectPropValueUint64 objectId = .error m)
    (hnotroot : objectId ≠ ParentObjectId) :
    Mtpx.GetFileSize dev obj objectId =
      .error (.FileObjectError
        ("GetObjectPropValue handle " ++ toString objectId ++ " failed: " ++ m)) ∧
    ∃ fi, Mtpx.GetObjectFromObjectId dev objectId parentPath = .ok fi ∧ fi.Size = 0 := by
  have h1 : Mtpx.GetFileSize dev obj objectId =
      .error (.FileObjectError
        ("GetObjectPropValue handle " ++ toString objectId ++ " failed: " ++ m)) := by
    simp [Mtpx.GetFileSize, hsent, hq]
  refine ⟨h1, ?_⟩
  exact ⟨⟨obj, 0, isObjectADir obj, obj.ModificationDate, obj.Filename,
    getFullPath (fixSlash parentPath) obj.Filename, fixSlash parentPath,
    extension obj.Filename (isObjectADir obj), obj.ParentObject, objectId⟩,
    by simp [Mtpx.GetObjectFromObjectId, hnotroot, hinfo, h1], rfl⟩

/-- C2 witness: the amended claim instantiated on the sample device at
handle 13. -/
theorem getFileSize_error_swallowed_by_describe_witness :
    Mtpx.GetFileSize sampleDev sampleBigObj 13 =
      .error (.FileObjectError "GetObjectPropValue handle 13 failed: no size prop") ∧
    ∃ fi, Mtpx.GetObjectFromObjectId sampleDev 13 "" = .ok fi ∧ fi.Size = 0 := by
  have h := getFileSize_error_swallowed_by_describe sampleDev sampleBigObj 13 "" "no size prop"
    rfl rfl rfl (by decide)
  exact h

/-- C8 counterexample: when the compact size field holds the sentinel and the
secondary precise-size query succeeds returning exactly `0xFFFFFFFF` (a file
of exactly 4294967295 bytes), the resolved `Size` equals the sentinel value
itself — refuting the claim's "and never the sentinel itself" conjunct. -/
theorem GetFileSize_sentinel_value_cex :
    sampleBigObj.CompressedSize = 0xffffffff ∧
    sizePropDev.getObjectPropValueUint64 9 = .ok 0xFFFFFFFF ∧
    Mtpx.GetFileSize sizePropDev sampleBigObj 9 = .ok (0xFFFFFFFF : Int) :=
  ⟨rfl, rfl, rfl⟩

/-- C8 amended: when the compact size field equals the all-ones sentinel and
the secondary query succeeds, `Size` is the (int64-cast) value returned by
the query — so it equals the sentinel exactly when the query itself returns
`0xFFFFFFFF`; when the compact field differs from the sentinel, `Size` is the
compact value and no secondary query is issued (formalized by device
independence of the result). -/
theorem GetFileSize_overflow_resolution :
    (∀ (dev : Device) (obj : ObjectInfo) (objectId v : Nat),
      obj.CompressedSize = 0xffffffff →
      dev.getObjectPropValueUint64 objectId = .ok v →
      Mtpx.GetFileSize dev obj objectId = .ok (int64ofUint64 v)) ∧
    (∀ (dev dev2 : Device) (obj : ObjectInfo) (objectId : Nat),
      obj.CompressedSize ≠ 0xffffffff →
      Mtpx.GetFileSize dev obj objectId = .ok (Int.ofNat obj.CompressedSize) ∧
      Mtpx.GetFileSize dev obj objectId = Mtpx.GetFileSize dev2 obj objectId) := by
  constructor
  · intro dev obj objectId v hsent hq
    simp [Mtpx.GetFileSize, hsent, hq]
  · intro dev dev2 obj objectId hne
    constructor
    · simp [Mtpx.GetFileSize, hne]
    · simp [Mtpx.GetFileSize, hne]

/-- C8 witness: both halves instantiated — handle 8 of `sizePropDev` reports
42 precisely for a sentinel compact field, and object 11 of the sample store
(compact size 5) resolves to 5 on the failing device as well. -/
theorem GetFileSize_overflow_resolution_witness :
    Mtpx.GetFileSize sizePropDev sampleBigObj 8 = .ok (int64ofUint64 42) ∧
    (Mtpx.GetFileSize failDev ⟨1, 0x3000, ParentObjectId, "a.txt", 5, 101⟩ 11 =
        .ok (Int.ofNat 5) ∧
      Mtpx.GetFileSize failDev ⟨1, 0x3000, ParentObjectId, "a.txt", 5, 101⟩ 11 =
        Mtpx.GetFileSize sampleDev ⟨1, 0x3000, ParentObjectId, "a.txt", 5, 101⟩ 11) :=
  ⟨GetFileSize_overflow_resolution.1 sizePropDev sampleBigObj 8 42 rfl rfl,
    GetFileSize_overflow_resolution.2 failDev sampleDev
      ⟨1, 0x3000, ParentObjectId, "a.txt", 5, 101⟩ 11 (by decide)⟩

/-- C6: when a file with the template's parent and name already exists,
`handleMakeFile` with `overwriteExisting = false` returns the existing
object's handle and issues no mutating operation at all (empty operation
trace: no delete, no create, no byte transfer).  Since the device is left
untouched, a second identical call returns the same handle. -/
theorem handleMakeFile_no_overwrite_idempotent (dev : Device) (sid : Nat)
    (obj : ObjectInfo) (fSize : Int) (fi : FileInfo)
    (hex : Mtpx.GetObjectFromParentIdAndFilename dev sid obj.ParentObject obj.Filename
      = .ok fi) :
    Mtpx.handleMakeFile dev sid obj fSize false = (.ok fi.ObjectId, []) := by
  simp [Mtpx.handleMakeFile, hex]

/-- C6 witness: creating "a.txt" under the root of the sample store with
`overwriteExisting = false` returns the existing handle 11 and performs no
operation. -/
theorem handleMakeFile_no_overwrite_idempotent_witness :
    Mtpx.handleMakeFile sampleDev 1 ⟨1, 0x3000, ParentObjectId, "a.txt", 0, 0⟩ 5 false
      = (.ok 11, []) :=
  handleMakeFile_no_overwrite_idempotent sampleDev 1
    ⟨1, 0x3000, ParentObjectId, "a.txt", 0, 0⟩ 5
    ⟨⟨1, 0x3000, ParentObjectId, "a.txt", 5, 101⟩, 5, false, 101, "a.txt", "/a.txt",
      "/", "txt", ParentObjectId, 11⟩ rfl

/-- Helper: a non-recursive child loop with all children describable and a
never-failing visitor visits exactly the allowed children, in order, and
counts them. -/
theorem walkLoop_nonrec_visits (describe : Nat → Except MtpError FileInfo)
    (cb : Mtpx.WalkCb) (recurse : Nat → String → Option Mtpx.WalkResult) :
    ∀ hs : List Nat,
      (∀ h ∈ hs, (describe h).isOk = true) →
      (∀ h fi, h ∈ hs → describe h = .ok fi → cb h fi = .ok ()) →
      Mtpx.walkLoop describe true false cb recurse hs =
        some ⟨(allowedChildren describe hs).length, allowedChildren describe hs, none⟩ := by
  intro hs
  induction hs with
  | nil => intro _ _; rfl
  | cons h rest ih =>
    intro hdesc hcb
    have hh : (describe h).isOk = true := hdesc h (by simp)
    have hrest1 : ∀ x ∈ rest, (describe x).isOk = true :=
      fun x hx => hdesc x (by simp [hx])
    have hrest2 : ∀ x fi2, x ∈ rest → describe x = .ok fi2 → cb x fi2 = .ok () :=
      fun x fi2 hx => hcb x fi2 (by simp [hx])
    have ihr := ih hrest1 hrest2
    cases hd : describe h with
    | error e => rw [hd] at hh; simp [Except.isOk, Except.toBool] at hh
    | ok fi =>
      have hcbh : cb h fi = .ok () := hcb h fi (by simp) hd
      by_cases hda : isDisallowedFiles fi.Name
      · simp [Mtpx.walkLoop, hd, hda, ihr, allowedChildren]
      · simp [Mtpx.walkLoop, hd, hda, hcbh, ihr, allowedChildren, Nat.add_comm]

/-- C7: a non-recursive remote walk with `skipDisallowedFiles = true` over a
directory whose children are all describable, under a visitor that never
fails, invokes the visitor exactly once per child with a non-excluded name
(the visit trace is exactly the allowed children, in enumeration order) and
returns their number as the total: excluded children are neither visited nor
counted. -/
theorem proccessWalk_exclusion_count (fuel : Nat) (dev : Device)
    (sid objectId : Nat) (fullPath : String) (cb : Mtpx.WalkCb) (fi : FileInfo)
    (hs : List Nat)
    (hanchor : Mtpx.GetObjectFromObjectIdOrPath dev sid objectId fullPath = .ok fi)
    (hhandles : dev.getObjectHandles sid fi.ObjectId = .ok hs)
    (hdesc : ∀ h ∈ hs, (Mtpx.GetObjectFromObjectId dev h fullPath).isOk = true)
    (hcb : ∀ h gfi, h ∈ hs → Mtpx.GetObjectFromObjectId dev h fullPath = .ok gfi →
      cb h gfi = .ok ()) :
    Mtpx.proccessWalk (fuel + 1) dev sid objectId fullPath false true cb =
      some ⟨(allowedChildren (fun h => Mtpx.GetObjectFromObjectId dev h fullPath) hs).length,
        allowedChildren (fun h => Mtpx.GetObjectFromObjectId dev h fullPath) hs,
        none⟩ := by
  simp only [Mtpx.proccessWalk, Mtpx.proccessWalkAux, hanchor, hhandles]
  exact walkLoop_nonrec_visits _ cb _ hs hdesc hcb

/-- C7 witness: the root of the sample store has children 10 ("docs"), 11
("a.txt") and 12 (".DS_Store", excluded); the non-recursive walk visits
exactly [10, 11] and returns 2. -/
theorem proccessWalk_exclusion_count_witness :
    Mtpx.proccessWalk 1 sampleDev 1 ParentObjectId "" false true (fun _ _ => .ok ())
      = some ⟨2, [10, 11], none⟩ :=
  proccessWalk_exclusion_count 0 sampleDev 1 ParentObjectId ""
    (fun _ _ => .ok ()) Mtpx.rootFileInfo [10, 11, 12] rfl rfl (by decide)
    (fun _ _ _ _ => rfl)

/-- Helper: prepending a child-loop prefix that completes without error adds
its count and visit trace to whatever the remainder of the loop produces. -/
theorem walkLoop_append_of_ok (describe : Nat → Except MtpError FileInfo)
    (skipD recursive : Bool) (cb : Mtpx.WalkCb)
    (recurse : Nat → String → Option Mtpx.WalkResult)
    (ys : List Nat) (ry : Mtpx.WalkResult)
    (hys : Mtpx.walkLoop describe skipD recursive cb recurse ys = some ry) :
    ∀ (xs : List Nat) (n : Nat) (w : List Nat),
      Mtpx.walkLoop describe skipD recursive cb recurse xs = some ⟨n, w, none⟩ →
      Mtpx.walkLoop describe skipD recursive cb recurse (xs ++ ys) =
        some ⟨n + ry.total, w ++ ry.visited, ry.err⟩ := by
  intro xs
  induction xs with
  | nil =>
    intro n w h
    simp only [Mtpx.walkLoop, Option.some.injEq, Mtpx.WalkResult.mk.injEq] at h
    obtain ⟨hn, hw, -⟩ := h
    subst hn; subst hw
    simpa using hys
  | cons x rest ih =>
    intro n w h
    cases hd : describe x with
    | error e =>
      simp only [Mtpx.walkLoop, List.cons_append, hd] at h ⊢
      exact ih n w h
    | ok fi =>
      by_cases hb : (skipD && isDisallowedFiles fi.Name) = true
      · simp only [Mtpx.walkLoop, List.cons_append, hd, hb, if_true] at h ⊢
        exact ih n w h
      · cases hc : cb x fi with
        | error e =>
          simp only [Mtpx.walkLoop, List.cons_append, hd, if_neg hb, hc] at h
          simp at h
        | ok u =>
          by_cases hr : (recursive && fi.IsDir) = true
          · cases hrec : recurse x fi.FullPath with
            | none =>
              simp only [Mtpx.walkLoop, List.cons_append, hd, if_neg hb, hc,
                hr, if_true, hrec] at h
              exact absurd h (by simp)
            | some r =>
              cases hre : r.err with
              | some e =>
                simp only [Mtpx.walkLoop, List.cons_append, hd, if_neg hb, hc,
                  hr, if_true, hrec, hre] at h
                simp at h
              | none =>
                cases hrest : Mtpx.walkLoop describe skipD recursive cb recurse rest with
                | none =>
                  simp only [Mtpx.walkLoop, List.cons_append, hd, if_neg hb, hc,
                    hr, if_true, hrec, hre, hrest] at h
                  exact absurd h (by simp)
                | some rr =>
                  simp only [Mtpx.walkLoop, List.cons_append, hd, if_neg hb, hc,
                    hr, if_true, hrec, hre, hrest, Option.some.injEq,
                    Mtpx.WalkResult.mk.injEq] at h
                  obtain ⟨hn, hw, herr⟩ := h
                  have hih := ih rr.total rr.visited (by rw [hrest, ← herr])
                  simp only [Mtpx.walkLoop, List.cons_append, List.append_eq, hd,
                    if_neg hb, hc, hr, if_true, hrec, hre, hih, Option.some.injEq,
                    Mtpx.WalkResult.mk.injEq]
                  subst hn; subst hw
                  try simp [List.append_assoc]
                  try omega
          · cases hrest : Mtpx.walkLoop describe skipD recursive cb recurse rest with
            | none =>
              simp only [Mtpx.walkLoop, List.cons_append, hd, if_neg hb, hc,
                if_neg hr, hrest] at h
              exact absurd h (by simp)
            | some rr =>
              simp only [Mtpx.walkLoop, List.cons_append, hd, if_neg hb, hc,
                if_neg hr, hrest, Option.some.injEq, Mtpx.WalkResult.mk.injEq] at h
              obtain ⟨hn, hw, herr⟩ := h
              have hih := ih rr.total rr.visited (by rw [hrest, ← herr])
              simp only [Mtpx.walkLoop, List.cons_append, List.append_eq, hd,
                if_neg hb, hc, if_neg hr, hih, Option.some.injEq,
                Mtpx.WalkResult.mk.injEq]
              subst hn; subst hw
              try simp [List.append_assoc]
              try omega

/-- C1 counterexample: on the sample store with a visitor that fails on every
entry, the walk fails on the 1st visited entry (the trace is exactly [10]) and
there are no completed recursive walks before it, so the claim predicts a
returned count of k - 1 = 0; the code returns 1, because `totalFiles` is
incremented before the visitor is invoked, so the failing entry itself is
counted. -/
theorem proccessWalk_abort_count_cex :
    Mtpx.proccessWalk 1 sampleDev 1 ParentObjectId "" false false
        (fun _ _ => .error (.FileObjectError "visitor failed"))
      = some ⟨1, [10], some (.FileObjectError "visitor failed")⟩ ∧
    (1 : Nat) ≠ 1 - 1 :=
  ⟨rfl, by decide⟩

/-- C1 amended: if the visitor fails on the k-th entry visited by a walk
frame (the frame's visit prefix before it completing with count `n`, which
already includes the counts of completed recursive walks of entries visited
earlier), the walk returns that failure together with a total of exactly
`n + 1`: the k-1 earlier direct entries plus their completed nested counts
plus the failing entry itself, which is counted because the count is
incremented before the visitor runs (so `k`, not `k - 1`, direct entries are
counted).  The visit trace is the prefix's trace followed by the failing
entry. -/
theorem proccessWalk_abort_propagation (fuel : Nat) (dev : Device)
    (sid objectId : Nat) (fullPath : String) (recursive skipD : Bool)
    (cb : Mtpx.WalkCb) (fi gfi : FileInfo) (pre rest w : List Nat)
    (h : Nat) (n : Nat) (e : MtpError)
    (hanchor : Mtpx.GetObjectFromObjectIdOrPath dev sid objectId fullPath = .ok fi)
    (hhandles : dev.getObjectHandles sid fi.ObjectId = .ok (pre ++ h :: rest))
    (hpre : Mtpx.walkLoop (fun objId => Mtpx.GetObjectFromObjectId dev objId fullPath)
        skipD recursive cb
        (fun objId p => Mtpx.proccessWalkAux dev sid recursive skipD cb fuel objId p)
        pre = some ⟨n, w, none⟩)
    (hdesc : Mtpx.GetObjectFromObjectId dev h fullPath = .ok gfi)
    (hallow : (skipD && isDisallowedFiles gfi.Name) = false)
    (hfail : cb h gfi = .error e) :
    Mtpx.proccessWalk (fuel + 1) dev sid objectId fullPath recursive skipD cb =
      some ⟨n + 1, w ++ [h], some e⟩ := by
  have hhead : Mtpx.walkLoop (fun objId => Mtpx.GetObjectFromObjectId dev objId fullPath)
      skipD recursive cb
      (fun objId p => Mtpx.proccessWalkAux dev sid recursive skipD cb fuel objId p)
      (h :: rest) = some ⟨1, [h], some e⟩ := by
    simp only [Mtpx.walkLoop, hdesc, hallow, Bool.false_eq_true, if_false, hfail]
  have happ := walkLoop_append_of_ok
    (fun objId => Mtpx.GetObjectFromObjectId dev objId fullPath) skipD recursive cb
    (fun objId p => Mtpx.proccessWalkAux dev sid recursive skipD cb fuel objId p)
    (h :: rest) ⟨1, [h], some e⟩ hhead pre n w hpre
  simp only [Mtpx.proccessWalk, Mtpx.proccessWalkAux, hanchor, hhandles]
  exact happ

/-- C1 witness: on the sample store, a recursive walk whose visitor fails
exactly on handle 11 first completes the prefix [10] (visiting 10 and, by
recursion, 20 and 21 — count 3), then counts and visits 11 and aborts: the
returned total is 3 + 1 = 4 and the trace is [10, 20, 21, 11]. -/
theorem proccessWalk_abort_propagation_witness :
    Mtpx.proccessWalk 3 sampleDev 1 ParentObjectId "" true true
        (fun objId _ => if objId == 11 then .error (.FileObjectError "stop") else .ok ())
      = some ⟨4, [10, 20, 21, 11], some (.FileObjectError "stop")⟩ :=
  proccessWalk_abort_propagation 2 sampleDev 1 ParentObjectId "" true true
    (fun objId _ => if objId == 11 then .error (.FileObjectError "stop") else .ok ())
    Mtpx.rootFileInfo
    ⟨⟨1, 0x3000, ParentObjectId, "a.txt", 5, 101⟩, 5, false, 101, "a.txt", "/a.txt",
      "/", "txt", ParentObjectId, 11⟩
    [10] [12] [10, 20, 21] 11 3 (.FileObjectError "stop")
    rfl rfl rfl rfl rfl rfl

/-- Helper: a resolve-loop prefix that succeeds continues with the remaining
segments from the reached state. -/
theorem resolveLoop_append_of_ok (dev : Device) (sid : Nat) (fp : String)
    (splitted : List String) :
    ∀ (xs : List String) (st st2 : Mtpx.ResolveState),
      Mtpx.resolveLoop dev sid fp splitted xs st = .ok st2 →
      ∀ ys, Mtpx.resolveLoop dev sid fp splitted (xs ++ ys) st =
        Mtpx.resolveLoop dev sid fp splitted ys st2 := by
  intro xs
  induction xs with
  | nil =>
    intro st st2 h ys
    simp only [Mtpx.resolveLoop] at h
    cases h
    rfl
  | cons x rest ih =>
    intro st st2 h ys
    cases hs : Mtpx.resolveStep dev sid fp splitted st x with
    | error e =>
      simp only [Mtpx.resolveLoop, hs] at h
      exact Except.noConfusion h
    | ok stm =>
      simp only [Mtpx.resolveLoop, List.cons_append, hs] at h ⊢
      exact ih stm st2 h ys

/-- Helper: a successful resolve step advances the segment index by one. -/
theorem resolveStep_i (dev : Device) (sid : Nat) (fp : String)
    (splitted : List String) (st : Mtpx.ResolveState) (f : String)
    (st2 : Mtpx.ResolveState)
    (h : Mtpx.resolveStep dev sid fp splitted st f = .ok st2) : st2.i = st.i + 1 := by
  cases hl : Mtpx.GetObjectFromParentIdAndFilename dev sid st.objectId f with
  | error e =>
    cases e <;> simp only [Mtpx.resolveStep, hl] at h <;> exact Except.noConfusion h
  | ok gfi =>
    simp only [Mtpx.resolveStep, hl] at h
    by_cases hc : (!gfi.IsDir && indexExists splitted (st.i + 1 + Mtpx.skipIndex)) = true
    · rw [if_pos hc] at h
      exact Except.noConfusion h
    · rw [if_neg hc] at h
      have := Except.ok.inj h
      rw [← this]

/-- Helper: a successful resolve loop advances the segment index by the
number of consumed segments. -/
theorem resolveLoop_i (dev : Device) (sid : Nat) (fp : String)
    (splitted : List String) :
    ∀ (xs : List String) (st st2 : Mtpx.ResolveState),
      Mtpx.resolveLoop dev sid fp splitted xs st = .ok st2 →
      st2.i = st.i + xs.length := by
  intro xs
  induction xs with
  | nil =>
    intro st st2 h
    simp only [Mtpx.resolveLoop] at h
    cases h
    simp
  | cons x rest ih =>
    intro st st2 h
    cases hs : Mtpx.resolveStep dev sid fp splitted st x with
    | error e =>
      simp only [Mtpx.resolveLoop, hs] at h
      exact Except.noConfusion h
    | ok stm =>
      simp only [Mtpx.resolveLoop, hs] at h
      have h1 := ih stm st2 h
      have h2 := resolveStep_i dev sid fp splitted st x stm hs
      simp only [List.length_cons]
      omega

/-- C3: if path resolution, after successfully consuming a prefix of
segments, looks the next segment up and obtains a non-directory while
further segments remain in the split, `GetObjectFromPath` fails with
`InvalidPathError` — regardless of the device's remaining content (the
segments in `rest` and the rest of the store are universally quantified, so
the failure holds whether or not the deeper path would otherwise exist). -/
theorem GetObjectFromPath_midpath_guard (dev : Device) (sid : Nat)
    (fullPath name : String) (pre rest : List String)
    (st : Mtpx.ResolveState) (gfi : FileInfo)
    (hne : fullPath ≠ "")
    (hsplit : stringsSplitSlash (fixSlash fullPath) = "" :: (pre ++ name :: rest))
    (hpre : Mtpx.resolveLoop dev sid fullPath (stringsSplitSlash (fixSlash fullPath))
        pre Mtpx.initResolveState = .ok st)
    (hlk : Mtpx.GetObjectFromParentIdAndFilename dev sid st.objectId name = .ok gfi)
    (hnd : gfi.IsDir = false)
    (hrest : rest ≠ []) :
    Mtpx.GetObjectFromPath dev sid fullPath =
      .error (.InvalidPathError ("path not found: " ++ fullPath)) := by
  have hne' : (fullPath == "") = false := by simpa using hne
  have hns : fixSlash fullPath ≠ PathSep := by
    intro hr
    rw [hr] at hsplit
    have h2 : ("" :: [""] : List String) = "" :: (pre ++ name :: rest) := hsplit
    have h3 : ([""] : List String) = pre ++ name :: rest := by
      injection h2
    have h4 := congrArg List.length h3
    simp [List.length_append] at h4
    have h5 : rest.length = 0 := by omega
    exact hrest (List.length_eq_zero.mp h5)
  have hns' : (fixSlash fullPath == PathSep) = false := by simpa using hns
  have hi : st.i = pre.length := by
    have h6 := resolveLoop_i dev sid fullPath (stringsSplitSlash (fixSlash fullPath))
      pre Mtpx.initResolveState st hpre
    simpa [Mtpx.initResolveState] using h6
  have hidx : indexExists (stringsSplitSlash (fixSlash fullPath))
      (st.i + 1 + Mtpx.skipIndex) = true := by
    rw [hsplit, hi]
    have hlen : 0 < rest.length := List.length_pos.mpr hrest
    simp only [indexExists, Mtpx.skipIndex, List.length_cons, List.length_append,
      decide_eq_true_eq]
    omega
  have hstep : Mtpx.resolveStep dev sid fullPath (stringsSplitSlash (fixSlash fullPath))
      st name = .error (.InvalidPathError ("path not found: " ++ fullPath)) := by
    simp [Mtpx.resolveStep, hlk, hnd, hidx]
  have hdrop : (stringsSplitSlash (fixSlash fullPath)).drop Mtpx.skipIndex
      = pre ++ name :: rest := by
    rw [hsplit]
    rfl
  have happ := resolveLoop_append_of_ok dev sid fullPath
    (stringsSplitSlash (fixSlash fullPath)) pre Mtpx.initResolveState st hpre
    (name :: rest)
  simp only [Mtpx.GetObjectFromPath, hne', Bool.false_eq_true, if_false, hns', hdrop,
    happ, Mtpx.resolveLoop, hstep]

/-- C3 witness: resolving "/a.txt/x" on the sample store reaches segment
"a.txt" (a file) with segment "x" remaining and fails with
`InvalidPathError`. -/
theorem GetObjectFromPath_midpath_guard_witness :
    Mtpx.GetObjectFromPath sampleDev 1 "/a.txt/x" =
      .error (.InvalidPathError "path not found: /a.txt/x") :=
  GetObjectFromPath_midpath_guard sampleDev 1 "/a.txt/x" "a.txt" [] ["x"]
    Mtpx.initResolveState
    ⟨⟨1, 0x3000, ParentObjectId, "a.txt", 5, 101⟩, 5, false, 101, "a.txt", "/a.txt",
      "/", "txt", ParentObjectId, 11⟩
    (by decide) rfl rfl rfl rfl (by decide)

/-- C4: when the per-segment name lookup fails at some reached segment, path
resolution translates a `FileNotFoundError` into an `InvalidPathError`
(wrapping the path and the lookup's message) before returning, and
propagates every other lookup error kind to the caller unchanged. -/
theorem GetObjectFromPath_lookup_error_translation (dev : Device) (sid : Nat)
    (fullPath name : String) (pre rest : List String)
    (st : Mtpx.ResolveState) (e : MtpError)
    (hne : fullPath ≠ "")
    (hns : fixSlash fullPath ≠ PathSep)
    (hsplit : stringsSplitSlash (fixSlash fullPath) = "" :: (pre ++ name :: rest))
    (hpre : Mtpx.resolveLoop dev sid fullPath (stringsSplitSlash (fixSlash fullPath))
        pre Mtpx.initResolveState = .ok st)
    (hlk : Mtpx.GetObjectFromParentIdAndFilename dev sid st.objectId name = .error e) :
    Mtpx.GetObjectFromPath dev sid fullPath =
      .error (match e with
        | .FileNotFoundError m =>
          .InvalidPathError ("path not found: " ++ fullPath ++ "\nreason: " ++ m)
        | _ => e) := by
  have hne' : (fullPath == "") = false := by simpa using hne
  have hns' : (fixSlash fullPath == PathSep) = false := by simpa using hns
  have hstep : Mtpx.resolveStep dev sid fullPath (stringsSplitSlash (fixSlash fullPath))
      st name = .error (match e with
        | .FileNotFoundError m =>
          .InvalidPathError ("path not found: " ++ fullPath ++ "\nreason: " ++ m)
        | _ => e) := by
    cases e <;> simp [Mtpx.resolveStep, hlk]
  have hdrop : (stringsSplitSlash (fixSlash fullPath)).drop Mtpx.skipIndex
      = pre ++ name :: rest := by
    rw [hsplit]
    rfl
  have happ := resolveLoop_append_of_ok dev sid fullPath
    (stringsSplitSlash (fixSlash fullPath)) pre Mtpx.initResolveState st hpre
    (name :: rest)
  simp only [Mtpx.GetObjectFromPath, hne', Bool.false_eq_true, if_false, hns', hdrop,
    happ, Mtpx.resolveLoop, hstep]

/-- C4 witness: resolving "/nope" on the sample store fails the lookup of
segment "nope" with `FileNotFoundError`, which reaches the caller as
`InvalidPathError` with the path and the lookup message. -/
theorem GetObjectFromPath_lookup_error_translation_witness :
    Mtpx.GetObjectFromPath sampleDev 1 "/nope" =
      .error (.InvalidPathError "path not found: /nope\nreason: file not found: nope") :=
  GetObjectFromPath_lookup_error_translation sampleDev 1 "/nope" "nope" [] []
    Mtpx.initResolveState (.FileNotFoundError "file not found: nope")
    (by decide) (by decide) rfl rfl rfl

@[simp]
theorem localFilesOf_append : ∀ v v2 : List LocalFileInfo,
    localFilesOf (v ++ v2) = localFilesOf v + localFilesOf v2 := by
  intro v v2
  induction v with
  | nil => simp [localFilesOf]
  | cons i v ih => simp [localFilesOf, ih]; ring

@[simp]
theorem localDirsOf_append : ∀ v v2 : List LocalFileInfo,
    localDirsOf (v ++ v2) = localDirsOf v + localDirsOf v2 := by
  intro v v2
  induction v with
  | nil => simp [localDirsOf]
  | cons i v ih => simp [localDirsOf, ih]; ring

@[simp]
theorem localSizeOf_append : ∀ v v2 : List LocalFileInfo,
    localSizeOf (v ++ v2) = localSizeOf v + localSizeOf v2 := by
  intro v v2
  induction v with
  | nil => simp [localSizeOf]
  | cons i v ih => simp [localSizeOf, ih]; ring

theorem walkForest_inv (cb : LocalWalkCb) :
    ∀ (ns : List LocalNode) (st : LocalTotals),
      ∀ (st2 : LocalTotals) (v : List LocalFileInfo) (e : Option MtpError),
        walkForest cb ns st = (st2, v, e) →
        ((∀ i ∈ v, isDisallowedFiles i.name = false ∧ i.isSymlink = false) ∧
          (e = none →
            st2 = ⟨st.totalFiles + localFilesOf v, st.totalDirectories + localDirsOf v,
              st.totalSize + localSizeOf v⟩)) := by
  intro ns st
  induction ns, st using walkForest.induct
  case cb => exact cb
  case case1 =>
    rename_i st
    intro st2 v e h
    simp only [walkForest, Prod.mk.injEq] at h
    obtain ⟨rfl, rfl, rfl⟩ := h
    refine ⟨by simp, fun _ => ?_⟩
    simp [localFilesOf, localDirsOf, localSizeOf]
  case case2 =>
    rename_i name rest st ih
    intro st2 v e h
    simp only [walkForest] at h
    exact ih st2 v e h
  case case3 =>
    rename_i n sz rest st hdis ih
    intro st2 v e h
    simp only [walkForest, hdis, if_true] at h
    exact ih st2 v e h
  case case4 =>
    rename_i n sz rest st hdis e2 hcb
    intro st2 v e h
    simp [walkForest, hdis, hcb, Prod.mk.injEq] at h
    obtain ⟨rfl, rfl, rfl⟩ := h
    constructor
    · intro i hi
      simp at hi
      subst hi
      exact ⟨by simpa using hdis, rfl⟩
    · intro he
      simp at he
  case case5 =>
    rename_i n sz rest st hdis u hcb stLet st3 v2 e2 hrest ih
    intro st2 v e h
    simp [walkForest, hdis, hcb, hrest, Prod.mk.injEq] at h
    obtain ⟨rfl, rfl, rfl⟩ := h
    obtain ⟨hIa, hIb⟩ := ih st3 v2 e2 hrest
    constructor
    · intro i hi
      rcases List.mem_cons.mp hi with rfl | hi2
      · exact ⟨by simpa using hdis, rfl⟩
      · exact hIa i hi2
    · intro he
      have hb := hIb he
      rw [hb]
      unfold stLet
      simp [localFilesOf, localDirsOf, localSizeOf, LocalTotals.mk.injEq]
      omega
  case case6 =>
    rename_i n cs rest st hdis stB vB eB hcs ih
    intro st2 v e h
    simp [walkForest, hdis, hcs, Prod.mk.injEq] at h
    obtain ⟨rfl, rfl, rfl⟩ := h
    obtain ⟨hIa, _⟩ := ih stB vB (some eB) hcs
    refine ⟨hIa, fun he => ?_⟩
    simp at he
  case case7 =>
    rename_i n cs rest st hdis stB vB hcs st3 v2 e2 hrest ihcs ihrest
    intro st2 v e h
    simp [walkForest, hdis, hcs, hrest, Prod.mk.injEq] at h
    obtain ⟨rfl, rfl, rfl⟩ := h
    obtain ⟨hIa, hIb⟩ := ihcs stB vB none hcs
    obtain ⟨hJa, hJb⟩ := ihrest st3 v2 e2 hrest
    constructor
    · intro i hi
      rcases List.mem_append.mp hi with hi1 | hi2
      · exact hIa i hi1
      · exact hJa i hi2
    · intro he
      have hb := hJb he
      have hc := hIb rfl
      rw [hb, hc]
      simp [localFilesOf_append, localDirsOf_append, localSizeOf_append,
        LocalTotals.mk.injEq]
      omega
  case case8 =>
    rename_i n cs rest st hdis e2 hcb
    intro st2 v e h
    simp [walkForest, hdis, hcb, Prod.mk.injEq] at h
    obtain ⟨rfl, rfl, rfl⟩ := h
    constructor
    · intro i hi
      simp at hi
      subst hi
      exact ⟨by simpa using hdis, rfl⟩
    · intro he
      simp at he
  case case9 =>
    rename_i n cs rest st hdis u hcb stLet stB vB eB hcs ih
    intro st2 v e h
    simp [walkForest, hdis, hcb, hcs, Prod.mk.injEq] at h
    obtain ⟨rfl, rfl, rfl⟩ := h
    obtain ⟨hIa, _⟩ := ih stB vB (some eB) hcs
    constructor
    · intro i hi
      rcases List.mem_cons.mp hi with rfl | hi2
      · exact ⟨by simpa using hdis, rfl⟩
      · exact hIa i hi2
    · intro he
      simp at he
  case case10 =>
    rename_i n cs rest st hdis u hcb stLet stB vB hcs st3 v2 e2 hrest ihcs ihrest
    intro st2 v e h
    simp [walkForest, hdis, hcb, hcs, hrest, Prod.mk.injEq] at h
    obtain ⟨rfl, rfl, rfl⟩ := h
    obtain ⟨hIa, hIb⟩ := ihcs stB vB none hcs
    obtain ⟨hJa, hJb⟩ := ihrest st3 v2 e2 hrest
    constructor
    · intro i hi
      rcases List.mem_cons.mp hi with rfl | hi2
      · exact ⟨by simpa using hdis, rfl⟩
      · rcases List.mem_append.mp hi2 with hi3 | hi4
        · exact hIa i hi3
        · exact hJa i hi4
    · intro he
      have hb := hJb he
      have hc := hIb rfl
      rw [hb, hc]
      unfold stLet
      simp [localFilesOf, localDirsOf, localSizeOf, localFilesOf_append,
        localDirsOf_append, localSizeOf_append, LocalTotals.mk.injEq]
      omega

/-- C10: in the local walk, an entry whose name matches the exclusion
predicate is never passed to the visitor (no excluded name — and no symbolic
link — appears in the visit trace) and never counted (on a completed walk the
three aggregates are computed exactly from the visited entries); yet an
excluded *directory* is not pruned: walking it is the same as walking its
children directly, so its descendants are still traversed and may be visited
and counted. -/
theorem walkLocalFiles_exclusion_no_prune :
    (∀ (sources : List LocalNode) (cb : LocalWalkCb) (st2 : LocalTotals)
        (v : List LocalFileInfo) (e : Option MtpError),
      walkLocalFiles sources cb = (st2, v, e) →
      (∀ i ∈ v, isDisallowedFiles i.name = false ∧ i.isSymlink = false) ∧
        (e = none → st2 = ⟨localFilesOf v, localDirsOf v, localSizeOf v⟩)) ∧
    (∀ (n : String) (cs : List LocalNode) (cb : LocalWalkCb),
      isDisallowedFiles n = true →
      walkLocalFiles [LocalNode.dir n cs] cb = walkLocalFiles cs cb) := by
  constructor
  · intro sources cb st2 v e h
    have hI := walkForest_inv cb sources ⟨0, 0, 0⟩ st2 v e h
    obtain ⟨hIa, hIb⟩ := hI
    refine ⟨hIa, fun he => ?_⟩
    have hb := hIb he
    simpa using hb
  · intro n cs cb hdis
    show walkForest cb [LocalNode.dir n cs] ⟨0, 0, 0⟩ = walkForest cb cs ⟨0, 0, 0⟩
    cases hcs : walkForest cb cs ⟨0, 0, 0⟩ with
    | mk stB rest2 =>
      cases rest2 with
      | mk vB eB =>
        cases eB with
        | none => simp [walkForest, hdis, hcs]
        | some err => simp [walkForest, hdis, hcs]

/-- C10 witness: walking a single excluded directory ".DS_Store" holding the
file "a.txt" (5 bytes) never visits the directory itself but does visit and
count its child: the walk equals the walk of the children and yields one
file, zero directories, five bytes. -/
theorem walkLocalFiles_exclusion_no_prune_witness :
    isDisallowedFiles ".DS_Store" = true ∧
    walkLocalFiles [LocalNode.dir ".DS_Store" [LocalNode.file "a.txt" 5]]
        (fun _ => .ok ())
      = (⟨1, 0, 5⟩, [⟨"a.txt", 5, false, false⟩], none) := by
  refine ⟨by decide, ?_⟩
  rw [walkLocalFiles_exclusion_no_prune.2 ".DS_Store" [LocalNode.file "a.txt" 5]
    (fun _ => .ok ()) (by decide)]
  have hd : isDisallowedFiles "a.txt" = false := by decide
  simp [walkLocalFiles, walkForest, hd]
